import Mathlib

/-!
Shallow embedding of the disperse-collect API's amount-resolution and
funds-validation engine (src/service.rs, src/dto.rs, src/routes.rs).

Modelling conventions:
* `Address` and `U256` are both modelled as `Nat`.  256-bit arithmetic is
  explicit: `checked_mul` / `checked_div` mirror the checked operations the
  source calls on `U256`, and `wadd` mirrors the wrapping behaviour of
  `+=` / `Iterator::sum` on `U256` (reduction modulo `2 ^ 256`; the source
  performs no explicit overflow check on the running sum).
* External I/O (provider reads, transaction submission) is modelled by
  explicit environments `ReadEnv` / `SubmitEnv` of response functions; a
  failing call returns the corresponding error value.  The fan-out of
  `try_join!` / `try_join_all` is modelled by its observable fail-fast
  result: every read must succeed, any failure fails the whole fetch.
* Fallible Rust functions returning `Result` become `Except`; `BTreeMap`
  iteration becomes an association list in strictly ascending key order.
-/

deriving instance DecidableEq for Except

def U256size : Nat := 2 ^ 256

/-- Wrapping 256-bit addition: models `+=` and `Iterator::sum` on `U256`,
which reduce modulo `2 ^ 256` on overflow instead of signalling an error. -/
def wadd (a b : Nat) : Nat := (a + b) % U256size

/-- Models `amounts.iter().sum()` (a left fold of wrapping addition). -/
def wrapSum (xs : List Nat) : Nat := xs.foldl wadd 0

/-- Models `U256::checked_mul`: `none` when the product does not fit in 256 bits. -/
def checked_mul (a b : Nat) : Option Nat :=
  if a * b < U256size then some (a * b) else none

/-- Models `U256::checked_div`: `none` exactly when the divisor is zero. -/
def checked_div (a b : Nat) : Option Nat :=
  if b = 0 then none else some (a / b)

/-- `FractionalAmount` (src/dto.rs): a request for `fraction / units` of a balance. -/
structure FractionalAmount where
  fraction : Nat
  units : Nat
deriving DecidableEq

/-- `FractionOrAmount` (src/dto.rs). -/
inductive FractionOrAmount where
  | Fraction (f : FractionalAmount)
  | Amount (amount : Nat)
deriving DecidableEq

/-- `FractionalAmount::to_absolute` (src/dto.rs):
`total.checked_mul(self.fraction)?.checked_div(self.units)`. -/
def FractionalAmount.to_absolute (f : FractionalAmount) (total : Nat) : Option Nat :=
  (checked_mul total f.fraction).bind (fun p => checked_div p f.units)

/-- `InvalidFractionalAmountError` (src/service.rs), carrying the offending fraction. -/
structure InvalidFractionalAmountError where
  spec : FractionalAmount
deriving DecidableEq

/-- `DcError` (src/service.rs).  Payloads the code never inspects
(`TransportErrorKind`, `anyhow::Error`) are dropped. -/
inductive DcError where
  | InsufficientFunds (required : Nat) (available : Nat) (address : Nat)
  | InvalidFractionalAmount (e : InvalidFractionalAmountError)
  | TokenNotFound (address : Nat)
  | Transport
  | Unexpected
  | SignerNotFound (address : Nat)
deriving DecidableEq

/-- `RpcError<TransportErrorKind>` collapsed to the two cases the code
distinguishes: the `Transport` variant versus every other variant. -/
inductive RpcErr where
  | transport
  | other
deriving DecidableEq

/-- `impl From<RpcError<TransportErrorKind>> for DcError` (src/service.rs). -/
def rpcErrorIntoDc : RpcErr → DcError
  | .transport => .Transport
  | .other => .Unexpected

/-- `alloy::contract::Error` collapsed to the cases `from_erc20_err` distinguishes. -/
inductive ContractError where
  | UnknownFunction
  | UnknownSelector
  | TransportError (e : RpcErr)
  | Other
deriving DecidableEq

/-- `DcError::from_erc20_err` (src/service.rs). -/
def from_erc20_err : ContractError → Nat → DcError
  | .UnknownFunction, token_address => .TokenNotFound token_address
  | .UnknownSelector, token_address => .TokenNotFound token_address
  | .TransportError e, _ => rpcErrorIntoDc e
  | .Other, _ => .Unexpected

/-- `normalize_amount` (src/service.rs): a fixed amount passes through unchanged;
a fraction is resolved with `to_absolute` and a zero result is rejected. -/
def normalize_amount (amount : FractionOrAmount) (available_balance : Nat) :
    Except InvalidFractionalAmountError Nat :=
  match amount with
  | .Amount amount => .ok amount
  | .Fraction f =>
    match f.to_absolute available_balance with
    | some a => if a = 0 then .error ⟨f⟩ else .ok a
    | none => .error ⟨f⟩

/-- The contract calls the service constructs, with the arguments the code passes. -/
inductive TxKind where
  | disperseEth (addresses : List Nat) (amounts : List Nat) (value : Nat)
  | disperseErc20 (spender : Nat) (token : Nat) (addresses : List Nat) (amounts : List Nat)
  | collectErc20 (token : Nat) (recipient : Nat) (addresses : List Nat) (amounts : List Nat)
  | erc20transfer (token : Nat) (recipient : Nat) (amount : Nat)
  | erc20approve (token : Nat) (spender : Nat) (amount : Nat)
  | transferEth (recipient : Nat) (value : Nat)
deriving DecidableEq

/-- A transaction request: the call plus the fields `send_transaction` sets. -/
structure Tx where
  kind : TxKind
  sender : Option Nat := none
  accessList : Option Nat := none
deriving DecidableEq

/-- `TransactionResponse` (src/dto.rs): the hash extracted from the receipt. -/
structure TransactionResponse where
  tx_hash : Nat
deriving DecidableEq

/-- `DisperseCollectResponse` (src/dto.rs).  `transfers` is built by the code as
`BTreeMap::from_iter(addresses.zip(amounts))`; with strictly ascending distinct
addresses this map is exactly the zipped association list. -/
structure DisperseCollectResponse where
  tx : TransactionResponse
  transfers : List (Nat × Nat)
deriving DecidableEq

/-- The provider's read surface: `get_balance`, `IERC20::balanceOf` (token, owner)
and `IERC20::allowance` (token, owner, spender). -/
structure ReadEnv where
  get_balance : Nat → Except RpcErr Nat
  balanceOf : Nat → Nat → Except ContractError Nat
  allowance : Nat → Nat → Nat → Except ContractError Nat

/-- The provider's write surface used by `send_transaction`: signer lookup,
access-list simulation, and submission (submission and receipt polling are
collapsed into one call returning the transaction hash). -/
structure SubmitEnv where
  has_signer_for : Nat → Bool
  create_access_list : Tx → Except RpcErr Nat
  send : Tx → Except RpcErr Nat

/-- `send_transaction` (src/service.rs): the signer check happens before any
network call; then the access list is simulated and attached, then the
transaction is submitted and its receipt awaited. -/
def send_transaction (s : SubmitEnv) (tx : Tx) (signer : Nat) :
    Except DcError TransactionResponse :=
  if s.has_signer_for signer then
    let tx1 : Tx := { tx with sender := some signer }
    match s.create_access_list tx1 with
    | .error e => .error (rpcErrorIntoDc e)
    | .ok al =>
      match s.send { tx1 with accessList := some al } with
      | .error e => .error (rpcErrorIntoDc e)
      | .ok h => .ok ⟨h⟩
  else .error (.SignerNotFound signer)

/-- The accumulation loop of `construct_disperse_recipients` (src/service.rs):
each recipient's resolved amount is pushed and the running sum is accumulated
with the wrapping `+=`. -/
def disperseLoop (total_balance : Nat) :
    List (Nat × FractionOrAmount) → List Nat → List Nat → Nat →
    Except InvalidFractionalAmountError (List Nat × List Nat × Nat)
  | [], addresses, amounts, sum => .ok (addresses, amounts, sum)
  | (address, amount) :: rest, addresses, amounts, sum =>
    match normalize_amount amount total_balance with
    | .error e => .error e
    | .ok actual_amount =>
      disperseLoop total_balance rest (addresses ++ [address])
        (amounts ++ [actual_amount]) (wadd sum actual_amount)

/-- `construct_disperse_recipients` (src/service.rs): resolve every recipient
against the sender's single reference balance, then compare the (wrapping)
sum against that balance. -/
def construct_disperse_recipients (sender : Nat) (total_balance : Nat)
    (recipients : List (Nat × FractionOrAmount)) :
    Except DcError (List Nat × List Nat) :=
  match disperseLoop total_balance recipients [] [] 0 with
  | .error e => .error (.InvalidFractionalAmount e)
  | .ok (addresses, amounts, sum) =>
    if sum > total_balance then
      .error (.InsufficientFunds sum total_balance sender)
    else
      .ok (addresses, amounts)

/-- The validation loop of `collect_erc20` (src/service.rs): each spender's
request is resolved against that spender's own balance, then checked against
`min(allowance, balance)`; the first violation aborts the whole request. -/
def collectLoop :
    List ((Nat × Nat) × (Nat × FractionOrAmount)) → List Nat → List Nat →
    Except DcError (List Nat × List Nat)
  | [], addresses, amounts => .ok (addresses, amounts)
  | ((allowance, balance), (address, amount)) :: rest, addresses, amounts =>
    match normalize_amount amount balance with
    | .error e => .error (.InvalidFractionalAmount e)
    | .ok actual_amount =>
      let available := min allowance balance
      if actual_amount > available then
        .error (.InsufficientFunds actual_amount available address)
      else
        collectLoop rest (addresses ++ [address]) (amounts ++ [actual_amount])

/-- The `try_join_all` fan-out of `collect_erc20` (src/service.rs): one
allowance+balance read pair per spender key; every pair must succeed, and any
failing read fails the whole fetch with no partial results. -/
def fetch_pairs (r : ReadEnv) (token contractAddr : Nat) :
    List Nat → Except ContractError (List (Nat × Nat))
  | [] => .ok []
  | owner :: rest =>
    match r.allowance token owner contractAddr with
    | .error e => .error e
    | .ok a =>
      match r.balanceOf token owner with
      | .error e => .error e
      | .ok b =>
        match fetch_pairs r token contractAddr rest with
        | .error e => .error e
        | .ok prs => .ok ((a, b) :: prs)

/-- `DisperseEthRequest` (src/dto.rs); the `BTreeMap` of recipients is an
association list in strictly ascending key order. -/
structure DisperseEthRequest where
  recipients : List (Nat × FractionOrAmount)
  caller : Nat

/-- `DisperseErc20Request` (src/dto.rs). -/
structure DisperseErc20Request where
  recipients : List (Nat × FractionOrAmount)
  token : Nat
  spender : Nat
  caller : Nat

/-- `CollectErc20Request` (src/dto.rs); the `BTreeMap` of spenders is an
association list in strictly ascending key order. -/
structure CollectErc20Request where
  caller : Nat
  recipient : Nat
  token : Nat
  spenders : List (Nat × FractionOrAmount)

/-- `ApproveRequest` (src/dto.rs). -/
structure ApproveRequest where
  spender : Nat
  amount : FractionOrAmount
  token : Nat
  caller : Nat

/-- `disperse_eth` (src/service.rs).  The attached native value is
`amounts.iter().sum()`, i.e. the wrapping sum of the amounts. -/
def disperse_eth (r : ReadEnv) (s : SubmitEnv) (request : DisperseEthRequest) :
    Except DcError DisperseCollectResponse :=
  match r.get_balance request.caller with
  | .error e => .error (rpcErrorIntoDc e)
  | .ok available_balance =>
    match construct_disperse_recipients request.caller available_balance request.recipients with
    | .error e => .error e
    | .ok (addresses, amounts) =>
      match send_transaction s
          ⟨.disperseEth addresses amounts (wrapSum amounts), none, none⟩ request.caller with
      | .error e => .error e
      | .ok txr => .ok ⟨txr, addresses.zip amounts⟩

/-- `disperse_erc20` (src/service.rs).  The `try_join!` pair is
`(allowance, balanceOf)`; the source binds it as `(balance, allowance)` — the
swap is harmless since only `min` of the two values is used. -/
def disperse_erc20 (r : ReadEnv) (s : SubmitEnv) (contractAddr : Nat)
    (request : DisperseErc20Request) : Except DcError DisperseCollectResponse :=
  match r.allowance request.token request.spender contractAddr with
  | .error e => .error (from_erc20_err e request.token)
  | .ok a =>
    match r.balanceOf request.token request.spender with
    | .error e => .error (from_erc20_err e request.token)
    | .ok b =>
      match construct_disperse_recipients request.spender (min a b) request.recipients with
      | .error e => .error e
      | .ok (addresses, amounts) =>
        match send_transaction s
            ⟨.disperseErc20 request.spender request.token addresses amounts, none, none⟩
            request.caller with
        | .error e => .error e
        | .ok txr => .ok ⟨txr, addresses.zip amounts⟩

/-- `collect_erc20` (src/service.rs): fetch one allowance+balance pair per
spender key, validate per entry, then submit one batched call. -/
def collect_erc20 (r : ReadEnv) (s : SubmitEnv) (contractAddr : Nat)
    (request : CollectErc20Request) : Except DcError DisperseCollectResponse :=
  match fetch_pairs r request.token contractAddr (request.spenders.map Prod.fst) with
  | .error e => .error (from_erc20_err e request.token)
  | .ok balances =>
    match collectLoop (balances.zip request.spenders) [] [] with
    | .error e => .error e
    | .ok (addresses, amounts) =>
      match send_transaction s
          ⟨.collectErc20 request.token request.recipient addresses amounts, none, none⟩
          request.caller with
      | .error e => .error e
      | .ok txr => .ok ⟨txr, addresses.zip amounts⟩

/-- `transfer_erc20` (src/service.rs): resolves against the caller's balance and
rejects a resolved amount exceeding that balance before submitting. -/
def transfer_erc20 (r : ReadEnv) (s : SubmitEnv) (caller recipient token_address : Nat)
    (amount : FractionOrAmount) : Except DcError TransactionResponse :=
  match r.balanceOf token_address caller with
  | .error e => .error (from_erc20_err e token_address)
  | .ok balance =>
    match normalize_amount amount balance with
    | .error e => .error (.InvalidFractionalAmount e)
    | .ok actual_amount =>
      if actual_amount > balance then
        .error (.InsufficientFunds actual_amount balance caller)
      else
        send_transaction s ⟨.erc20transfer token_address recipient actual_amount, none, none⟩
          caller

/-- `approve` (src/service.rs): the balance read serves only as the reference for
fraction resolution; the resolved amount is never compared against it. -/
def approve (r : ReadEnv) (s : SubmitEnv) (request : ApproveRequest) :
    Except DcError TransactionResponse :=
  match r.balanceOf request.token request.caller with
  | .error e => .error (from_erc20_err e request.token)
  | .ok balance =>
    match normalize_amount request.amount balance with
    | .error e => .error (.InvalidFractionalAmount e)
    | .ok actual_amount =>
      send_transaction s ⟨.erc20approve request.token request.spender actual_amount, none, none⟩
        request.caller

/-- `ApiError` (src/routes.rs): `InvalidRequest` carries the descriptive
`DcError` message; `Internal` logs the detail and answers with an opaque body. -/
inductive ApiError where
  | InvalidRequest (e : DcError)
  | Internal (e : DcError)
deriving DecidableEq

/-- `impl From<DcError> for ApiError` (src/routes.rs): only the first three
variants are matched as caller-fixable; everything else is internal. -/
def dcErrorIntoApiError : DcError → ApiError
  | .InsufficientFunds required available address =>
      .InvalidRequest (.InsufficientFunds required available address)
  | .InvalidFractionalAmount e => .InvalidRequest (.InvalidFractionalAmount e)
  | .TokenNotFound a => .InvalidRequest (.TokenNotFound a)
  | e => .Internal e

/-- The HTTP status `impl IntoResponse for ApiError` (src/routes.rs) assigns. -/
def ApiError.statusCode : ApiError → Nat
  | .InvalidRequest _ => 400
  | .Internal _ => 500

/-- Specification-side decomposition of the disperse loop: resolve every
recipient independently against the same reference balance, keeping each
address next to its resolved amount. -/
def resolvePairs (total : Nat) :
    List (Nat × FractionOrAmount) → Except InvalidFractionalAmountError (List (Nat × Nat))
  | [] => .ok []
  | (address, spec) :: rest =>
    match normalize_amount spec total with
    | .error e => .error e
    | .ok m =>
      match resolvePairs total rest with
      | .error e => .error e
      | .ok prs => .ok ((address, m) :: prs)

/-- A collect entry `((allowance, balance), (address, spec))` that resolves
and fits within `min(allowance, balance)`. -/
def entryOk (e : (Nat × Nat) × (Nat × FractionOrAmount)) : Prop :=
  ∃ m, normalize_amount e.2.2 e.1.2 = .ok m ∧ m ≤ min e.1.1 e.1.2

/-- A provider snapshot: every account holds 100 wei of ETH; every token
account holds balance 10 with allowance 5 towards the contract. -/
def readEnvA : ReadEnv where
  get_balance := fun _ => .ok 100
  balanceOf := fun _ _ => .ok 10
  allowance := fun _ _ _ => .ok 5

/-- A provider snapshot whose `balanceOf` read always fails with a contract error. -/
def readEnvFail : ReadEnv where
  get_balance := fun _ => .ok 0
  balanceOf := fun _ _ => .error .Other
  allowance := fun _ _ _ => .ok 1

/-- A submitter with a signer for every address; submission yields hash 7. -/
def submitEnvA : SubmitEnv where
  has_signer_for := fun _ => true
  create_access_list := fun _ => .ok 0
  send := fun _ => .ok 7

/-- A submitter with no configured signer for any address. -/
def submitEnvNone : SubmitEnv where
  has_signer_for := fun _ => false
  create_access_list := fun _ => .ok 0
  send := fun _ => .ok 7

/-- Helper: `to_absolute` computes the floored quotient exactly, failing
precisely on zero units or a 256-bit product overflow. -/
theorem to_absolute_eq (total : Nat) (f : FractionalAmount) :
    f.to_absolute total =
      if f.units = 0 ∨ U256size ≤ total * f.fraction then none
      else some (f.fraction * total / f.units) := by
  unfold FractionalAmount.to_absolute checked_mul checked_div
  rw [Nat.mul_comm total f.fraction]
  rcases Nat.lt_or_ge (f.fraction * total) U256size with hmul | hmul
  · rcases Nat.eq_zero_or_pos f.units with hu | hu
    · simp [hmul, hu]
    · simp [hmul, hu.ne', Nat.not_le.mpr hmul]
  · simp [Nat.not_lt.mpr hmul, hmul]

/-- Claim C1: fraction resolution returns exactly
`floor(fraction * total / units)`, and it fails with an invalid-fraction error
precisely when `units = 0`, when `total * fraction` overflows the 256-bit
width, or when the floored result is zero. -/
theorem fraction_resolution_exact (total : Nat) (f : FractionalAmount) :
    (f.to_absolute total =
      if f.units = 0 ∨ U256size ≤ total * f.fraction then none
      else some (f.fraction * total / f.units)) ∧
    (normalize_amount (.Fraction f) total =
      if f.units = 0 ∨ U256size ≤ total * f.fraction ∨ f.fraction * total / f.units = 0
      then .error ⟨f⟩
      else .ok (f.fraction * total / f.units)) := by
  refine ⟨to_absolute_eq total f, ?_⟩
  simp only [normalize_amount]
  rw [to_absolute_eq total f]
  by_cases h1 : f.units = 0 ∨ U256size ≤ total * f.fraction
  · have h3 : f.units = 0 ∨ U256size ≤ total * f.fraction ∨ f.fraction * total / f.units = 0 :=
      h1.imp id Or.inl
    simp [h1, h3]
  · by_cases h2 : f.fraction * total / f.units = 0
    · simp [h1, h2]
    · simp [h1, h2]

/-- Claim C9: a fixed `Amount{amount}` resolves to `amount` unchanged for every
reference balance, with no validation and no zero rejection on this path. -/
theorem amount_resolution_identity (amount total : Nat) :
    normalize_amount (.Amount amount) total = .ok amount := rfl

/-- Claim C7: contract-error classification — unknown function or selector
against the token address becomes `TokenNotFound` carrying that address, a
transport-kind failure becomes `Transport`, and every other contract error
(including a non-transport RPC response error) becomes `Unexpected`. -/
theorem erc20_error_classification (t : Nat) :
    from_erc20_err .UnknownFunction t = .TokenNotFound t ∧
    from_erc20_err .UnknownSelector t = .TokenNotFound t ∧
    from_erc20_err (.TransportError .transport) t = .Transport ∧
    from_erc20_err (.TransportError .other) t = .Unexpected ∧
    from_erc20_err .Other t = .Unexpected :=
  ⟨rfl, rfl, rfl, rfl, rfl⟩

/-- Counterexample to claim C5: a `SignerNotFound` failure is routed to the
opaque 500 internal-error response, not to a 400 client error. -/
theorem signer_not_found_http_cex :
    dcErrorIntoApiError (.SignerNotFound 3) = .Internal (.SignerNotFound 3) ∧
    (dcErrorIntoApiError (.SignerNotFound 3)).statusCode = 500 ∧
    (dcErrorIntoApiError (.SignerNotFound 3)).statusCode ≠ 400 := by
  refine ⟨rfl, rfl, by decide⟩

/-- Claim C5 (amended): `SignerNotFound` is surfaced as an opaque 500 internal
error; only `InsufficientFunds`, `InvalidFractionalAmount` and `TokenNotFound`
are surfaced as 400 client errors with the descriptive message.  The signer
check itself still happens first in `send_transaction`. -/
theorem signer_not_found_http :
    (∀ a : Nat, dcErrorIntoApiError (.SignerNotFound a) = .Internal (.SignerNotFound a) ∧
      (dcErrorIntoApiError (.SignerNotFound a)).statusCode = 500) ∧
    (∀ required available address : Nat,
      (dcErrorIntoApiError (.InsufficientFunds required available address)).statusCode = 400) ∧
    (∀ e, (dcErrorIntoApiError (.InvalidFractionalAmount e)).statusCode = 400) ∧
    (∀ t : Nat, (dcErrorIntoApiError (.TokenNotFound t)).statusCode = 400) ∧
    (∀ (s : SubmitEnv) (tx : Tx) (signer : Nat), s.has_signer_for signer = false →
      send_transaction s tx signer = .error (.SignerNotFound signer)) := by
  refine ⟨fun a => ⟨rfl, rfl⟩, fun _ _ _ => rfl, fun _ => rfl, fun _ => rfl, ?_⟩
  intro s tx signer h
  unfold send_transaction
  rw [h]
  simp

/-- Witness for the amended claim C5 at a concrete submitter with no signer. -/
theorem signer_not_found_http_witness :
    submitEnvNone.has_signer_for 3 = false ∧
    send_transaction submitEnvNone ⟨.transferEth 1 2, none, none⟩ 3 =
      .error (.SignerNotFound 3) :=
  ⟨rfl, signer_not_found_http.2.2.2.2 submitEnvNone ⟨.transferEth 1 2, none, none⟩ 3 rfl⟩

/-- Helper: the disperse accumulation loop equals the independent resolution of
every recipient followed by appending addresses, amounts, and folding the
wrapping sum. -/
theorem disperseLoop_eq (total : Nat) (rs : List (Nat × FractionOrAmount)) :
    ∀ (addresses amounts : List Nat) (sum : Nat),
      disperseLoop total rs addresses amounts sum =
        match resolvePairs total rs with
        | .error e => .error e
        | .ok prs =>
          .ok (addresses ++ prs.map Prod.fst, amounts ++ prs.map Prod.snd,
            List.foldl wadd sum (prs.map Prod.snd)) := by
  induction rs with
  | nil => intro addresses amounts sum; simp [disperseLoop, resolvePairs]
  | cons hd tl ih =>
    obtain ⟨address, spec⟩ := hd
    intro addresses amounts sum
    cases hn : normalize_amount spec total with
    | error e => simp [disperseLoop, resolvePairs, hn]
    | ok m =>
      cases ht : resolvePairs total tl with
      | error e => simp [disperseLoop, resolvePairs, hn, ht, ih]
      | ok prs => simp [disperseLoop, resolvePairs, hn, ht, ih]

/-- Helper: `construct_disperse_recipients` characterized as independent
resolution followed by the wrapping-sum funds check. -/
theorem construct_disperse_eq (sender total : Nat) (rs : List (Nat × FractionOrAmount)) :
    construct_disperse_recipients sender total rs =
      match resolvePairs total rs with
      | .error e => .error (.InvalidFractionalAmount e)
      | .ok prs =>
        if wrapSum (prs.map Prod.snd) > total then
          .error (.InsufficientFunds (wrapSum (prs.map Prod.snd)) total sender)
        else .ok (prs.map Prod.fst, prs.map Prod.snd) := by
  unfold construct_disperse_recipients
  rw [disperseLoop_eq]
  cases resolvePairs total rs with
  | error e => rfl
  | ok prs => simp [wrapSum]

/-- Helper: successful resolution keeps the request's addresses in order. -/
theorem resolvePairs_map_fst (total : Nat) :
    ∀ (rs : List (Nat × FractionOrAmount)) (prs : List (Nat × Nat)),
      resolvePairs total rs = .ok prs → prs.map Prod.fst = rs.map Prod.fst := by
  intro rs
  induction rs with
  | nil =>
    intro prs h
    simp [resolvePairs] at h
    simp [h.symm]
  | cons hd tl ih =>
    obtain ⟨address, spec⟩ := hd
    intro prs h
    cases hn : normalize_amount spec total with
    | error e => simp [resolvePairs, hn] at h
    | ok m =>
      cases ht : resolvePairs total tl with
      | error e => simp [resolvePairs, hn, ht] at h
      | ok prs2 =>
        simp [resolvePairs, hn, ht] at h
        simp [h.symm, ih prs2 ht]

/-- Counterexample to claim C2: with two fixed amounts whose true sum exceeds
the ceiling, the 256-bit running sum wraps to 50 and the request is accepted
instead of failing with `InsufficientFunds`. -/
theorem disperse_aggregate_overflow_cex :
    construct_disperse_recipients 9 100
        [(1, .Amount (U256size - 50)), (2, .Amount 100)] =
      .ok ([1, 2], [U256size - 50, 100]) ∧
    100 < (U256size - 50) + 100 := by
  constructor
  · decide
  · decide

/-- Claim C2 (amended): the aggregate disperse check compares the wrapping
(modulo `2 ^ 256`) sum of the resolved amounts against the sender's ceiling:
when that wrapped sum exceeds the ceiling the request fails with
`InsufficientFunds{required = wrapped sum, available = ceiling, address =
sender}` before any transaction exists (the conclusion holds for every
submitter), and when it does not, no `InsufficientFunds` arises at this stage;
a true sum that overflows 256 bits is compared only after wrapping. -/
theorem disperse_aggregate_wrapped :
    (∀ (sender total : Nat) (rs : List (Nat × FractionOrAmount)) (prs : List (Nat × Nat)),
      resolvePairs total rs = .ok prs →
      (total < wrapSum (prs.map Prod.snd) →
        construct_disperse_recipients sender total rs =
          .error (.InsufficientFunds (wrapSum (prs.map Prod.snd)) total sender)) ∧
      (wrapSum (prs.map Prod.snd) ≤ total →
        construct_disperse_recipients sender total rs =
          .ok (prs.map Prod.fst, prs.map Prod.snd))) ∧
    (∀ (r : ReadEnv) (s : SubmitEnv) (request : DisperseEthRequest) (bal : Nat) (err : DcError),
      r.get_balance request.caller = .ok bal →
      construct_disperse_recipients request.caller bal request.recipients = .error err →
      disperse_eth r s request = .error err) ∧
    (∀ (r : ReadEnv) (s : SubmitEnv) (contractAddr : Nat) (request : DisperseErc20Request)
        (a b : Nat) (err : DcError),
      r.allowance request.token request.spender contractAddr = .ok a →
      r.balanceOf request.token request.spender = .ok b →
      construct_disperse_recipients request.spender (min a b) request.recipients = .error err →
      disperse_erc20 r s contractAddr request = .error err) := by
  refine ⟨?_, ?_, ?_⟩
  · intro sender total rs prs h
    rw [construct_disperse_eq, h]
    constructor
    · intro hlt
      simp [hlt]
    · intro hle
      simp [Nat.not_lt.mpr hle]
  · intro r s request bal err hbal hcon
    simp [disperse_eth, hbal, hcon]
  · intro r s contractAddr request a b err ha hb hcon
    simp [disperse_erc20, ha, hb, hcon]

/-- Witness for the amended claim C2: the spec's own scenario — balance 100,
recipients `{1: Fraction{60,100}, 2: Fraction{60,100}}` — resolves to 60 and
60, whose sum 120 exceeds 100, so the whole operation fails with
`InsufficientFunds{required: 120, available: 100, address: caller}`. -/
theorem disperse_aggregate_wrapped_witness :
    resolvePairs 100 [(1, .Fraction ⟨60, 100⟩), (2, .Fraction ⟨60, 100⟩)] =
      .ok [(1, 60), (2, 60)] ∧
    100 < wrapSum (List.map Prod.snd [((1 : Nat), (60 : Nat)), (2, 60)]) ∧
    disperse_eth readEnvA submitEnvA
        ⟨[(1, .Fraction ⟨60, 100⟩), (2, .Fraction ⟨60, 100⟩)], 9⟩ =
      .error (.InsufficientFunds 120 100 9) := by
  refine ⟨by decide, by decide, ?_⟩
  have h1 := (disperse_aggregate_wrapped.1 9 100
      [(1, .Fraction ⟨60, 100⟩), (2, .Fraction ⟨60, 100⟩)] [(1, 60), (2, 60)]
      (by decide)).1 (by decide)
  have hw : wrapSum (List.map Prod.snd [((1 : Nat), (60 : Nat)), (2, 60)]) = 120 := by decide
  rw [hw] at h1
  exact disperse_aggregate_wrapped.2.1 readEnvA submitEnvA
    ⟨[(1, .Fraction ⟨60, 100⟩), (2, .Fraction ⟨60, 100⟩)], 9⟩ 100
    (.InsufficientFunds 120 100 9) rfl h1

/-- Claim C6 (evaluated at the failing input): the running sum of resolved
amounts uses wrapping 256-bit addition, so a true sum of `2^256 + 50` wraps to
`50`, the funds check passes, and the batch — whose attached native value is
the same wrapping sum — is constructed instead of any overflow error being
raised. -/
theorem aggregate_sum_wraps_silently :
    construct_disperse_recipients 9 200
        [(1, .Amount (U256size - 100)), (2, .Amount 150)] =
      .ok ([1, 2], [U256size - 100, 150]) ∧
    wrapSum [U256size - 100, 150] = 50 ∧
    200 < (U256size - 100) + 150 := by
  refine ⟨by decide, by decide, by decide⟩

/-- Helper: zipping the projections of a pair list restores the list. -/
theorem zip_map_fst_snd_eq {α β : Type} :
    ∀ (l : List (α × β)), (l.map Prod.fst).zip (l.map Prod.snd) = l := by
  intro l
  induction l with
  | nil => rfl
  | cons hd tl ih => simp [ih]

/-- Claim C4: on a recipient map iterated in strictly ascending address order,
successful batch assembly yields equally long address and amount sequences,
the addresses in the same strictly ascending order, a zip that is exactly the
independently resolved transfer map, and (the assembly being a pure function
of the map and reference balance) identical output on repeated runs. -/
theorem batch_assembly_deterministic
    (sender total : Nat) (rs : List (Nat × FractionOrAmount))
    (addresses amounts : List Nat)
    (hsorted : List.Pairwise (fun p q : Nat × FractionOrAmount => p.1 < q.1) rs)
    (hok : construct_disperse_recipients sender total rs = .ok (addresses, amounts)) :
    addresses.length = amounts.length ∧
    addresses = rs.map Prod.fst ∧
    List.Pairwise (fun a b : Nat => a < b) addresses ∧
    resolvePairs total rs = .ok (addresses.zip amounts) ∧
    construct_disperse_recipients sender total rs =
      construct_disperse_recipients sender total rs := by
  rw [construct_disperse_eq] at hok
  cases ht : resolvePairs total rs with
  | error e => rw [ht] at hok; simp at hok
  | ok prs =>
    rw [ht] at hok
    by_cases hif : wrapSum (prs.map Prod.snd) > total
    · simp [hif] at hok
    · simp [hif] at hok
      obtain ⟨ha, hm⟩ := hok
      subst ha
      subst hm
      have hfst := resolvePairs_map_fst total rs prs ht
      refine ⟨by simp, hfst, ?_, ?_, rfl⟩
      · rw [hfst]
        exact List.pairwise_map.mpr hsorted
      · rw [zip_map_fst_snd_eq prs]

/-- Witness for claim C4 at the spec's scenario: balance 100, recipients
`{1: Fraction{50,100}, 2: Amount{30}}` resolve to the sequences `[1, 2]` and
`[50, 30]`, which zip back to the transfer map `{1: 50, 2: 30}`. -/
theorem batch_assembly_deterministic_witness :
    construct_disperse_recipients 9 100 [(1, .Fraction ⟨50, 100⟩), (2, .Amount 30)] =
      .ok ([1, 2], [50, 30]) ∧
    [(1 : Nat), 2].length = [(50 : Nat), 30].length ∧
    List.Pairwise (fun a b : Nat => a < b) [1, 2] ∧
    resolvePairs 100 [(1, .Fraction ⟨50, 100⟩), (2, .Amount 30)] =
      .ok ([(1 : Nat), 2].zip [(50 : Nat), 30]) := by
  have h := batch_assembly_deterministic 9 100
    [(1, .Fraction ⟨50, 100⟩), (2, .Amount 30)] [1, 2] [50, 30]
    (by decide) (by decide)
  exact ⟨by decide, h.1, h.2.2.1, h.2.2.2.1⟩

/-- Claim C3: in the collect loop each spender is resolved against its own
balance and checked against its own `min(allowance, balance)`; the first entry
in iteration (ascending address) order whose resolved amount exceeds that
ceiling fails the whole request with exactly that entry's data, however many
valid entries precede it — and once the loop fails, `collect_erc20` returns
that error for every submitter, so no transaction is constructed. -/
theorem collect_per_entry_validation :
    (∀ (pre : List ((Nat × Nat) × (Nat × FractionOrAmount)))
        (allowance balance address : Nat) (spec : FractionOrAmount)
        (post : List ((Nat × Nat) × (Nat × FractionOrAmount)))
        (actual : Nat) (addresses amounts : List Nat),
      (∀ e ∈ pre, entryOk e) →
      normalize_amount spec balance = .ok actual →
      min allowance balance < actual →
      collectLoop (pre ++ ((allowance, balance), (address, spec)) :: post) addresses amounts =
        .error (.InsufficientFunds actual (min allowance balance) address)) ∧
    (∀ (r : ReadEnv) (s : SubmitEnv) (contractAddr : Nat) (request : CollectErc20Request)
        (pairs : List (Nat × Nat)) (err : DcError),
      fetch_pairs r request.token contractAddr (request.spenders.map Prod.fst) = .ok pairs →
      collectLoop (pairs.zip request.spenders) [] [] = .error err →
      collect_erc20 r s contractAddr request = .error err) := by
  constructor
  · intro pre
    induction pre with
    | nil =>
      intro allowance balance address spec post actual addresses amounts hpre hn hlt
      simp [collectLoop, hn, hlt]
    | cons e pre ih =>
      intro allowance balance address spec post actual addresses amounts hpre hn hlt
      obtain ⟨⟨alw, bal⟩, ⟨addr2, spec2⟩⟩ := e
      obtain ⟨m, hm, hle⟩ := hpre _ (List.mem_cons_self _ _)
      have hnot : ¬ m > min alw bal := Nat.not_lt.mpr hle
      simp only [List.cons_append, collectLoop, hm]
      rw [if_neg hnot]
      exact ih allowance balance address spec post actual _ _
        (fun e he => hpre e (List.mem_cons_of_mem _ he)) hn hlt
  · intro r s contractAddr request pairs err hfetch hloop
    simp [collect_erc20, hfetch, hloop]

/-- Witness for claim C3 at the spec's scenario: spender 2 with balance 10 and
allowance 5 requesting `Fraction{100,100}` resolves to 10, exceeds
`min(10, 5) = 5`, and the whole request fails with
`InsufficientFunds{required: 10, available: 5, address: 2}` even though the
preceding entry was valid. -/
theorem collect_per_entry_validation_witness :
    collectLoop [((7, 7), (1, .Amount 3)), ((5, 10), (2, .Fraction ⟨100, 100⟩))] [] [] =
      .error (.InsufficientFunds 10 5 2) ∧
    collect_erc20 readEnvA submitEnvA 9 ⟨3, 4, 2, [(2, .Fraction ⟨100, 100⟩)]⟩ =
      .error (.InsufficientFunds 10 5 2) := by
  have hpre : ∀ e ∈ [(((7 : Nat), (7 : Nat)), ((1 : Nat), FractionOrAmount.Amount 3))],
      entryOk e := by
    intro e he
    simp at he
    subst he
    exact ⟨3, rfl, by decide⟩
  have h1 := collect_per_entry_validation.1 [((7, 7), (1, .Amount 3))] 5 10 2
    (.Fraction ⟨100, 100⟩) [] 10 [] [] hpre (by decide) (by decide)
  have hmin : min (5 : Nat) 10 = 5 := by decide
  rw [hmin] at h1
  refine ⟨h1, ?_⟩
  have h2 := collect_per_entry_validation.1 ([] : List ((Nat × Nat) × (Nat × FractionOrAmount)))
    5 10 2 (.Fraction ⟨100, 100⟩) [] 10 [] [] (by simp) (by decide) (by decide)
  rw [hmin] at h2
  exact collect_per_entry_validation.2 readEnvA submitEnvA 9
    ⟨3, 4, 2, [(2, .Fraction ⟨100, 100⟩)]⟩ [(5, 10)] (.InsufficientFunds 10 5 2) (by decide)
    (by simpa using h2)

/-- Claim C8: the collect fetch issues one allowance+balance pair per spender
key (one result pair per distinct address on success), any single failing read
fails the whole fetch, and a failed fetch makes `collect_erc20` return the
classified error for every submitter — no partial results, no resolution, no
transaction. -/
theorem collect_fetch_fail_fast :
    (∀ (r : ReadEnv) (token contractAddr : Nat) (owners : List Nat)
        (pairs : List (Nat × Nat)),
      fetch_pairs r token contractAddr owners = .ok pairs → pairs.length = owners.length) ∧
    (∀ (r : ReadEnv) (token contractAddr : Nat) (owners : List Nat) (o : Nat),
      o ∈ owners →
      ((∃ ce, r.allowance token o contractAddr = .error ce) ∨
        (∃ ce, r.balanceOf token o = .error ce)) →
      ∃ e, fetch_pairs r token contractAddr owners = .error e) ∧
    (∀ (r : ReadEnv) (s : SubmitEnv) (contractAddr : Nat) (request : CollectErc20Request)
        (e : ContractError),
      fetch_pairs r request.token contractAddr (request.spenders.map Prod.fst) = .error e →
      collect_erc20 r s contractAddr request = .error (from_erc20_err e request.token)) := by
  refine ⟨?_, ?_, ?_⟩
  · intro r token contractAddr owners
    induction owners with
    | nil =>
      intro pairs h
      simp [fetch_pairs] at h
      simp [h.symm]
    | cons hd tl ih =>
      intro pairs h
      cases ha : r.allowance token hd contractAddr with
      | error e => simp [fetch_pairs, ha] at h
      | ok a =>
        cases hb : r.balanceOf token hd with
        | error e => simp [fetch_pairs, ha, hb] at h
        | ok b =>
          cases ht : fetch_pairs r token contractAddr tl with
          | error e => simp [fetch_pairs, ha, hb, ht] at h
          | ok prs =>
            simp [fetch_pairs, ha, hb, ht] at h
            simp [h.symm, ih prs ht]
  · intro r token contractAddr owners o ho hfail
    induction owners with
    | nil => exact absurd ho (List.not_mem_nil o)
    | cons hd tl ih =>
      cases ha : r.allowance token hd contractAddr with
      | error ce => exact ⟨ce, by simp [fetch_pairs, ha]⟩
      | ok a =>
        cases hb : r.balanceOf token hd with
        | error ce => exact ⟨ce, by simp [fetch_pairs, ha, hb]⟩
        | ok b =>
          rcases List.mem_cons.mp ho with heq | hmem
          · subst heq
            rcases hfail with ⟨ce, hce⟩ | ⟨ce, hce⟩
            · rw [ha] at hce; cases hce
            · rw [hb] at hce; cases hce
          · obtain ⟨e, he⟩ := ih hmem
            exact ⟨e, by simp [fetch_pairs, ha, hb, he]⟩
  · intro r s contractAddr request e hfetch
    simp [collect_erc20, hfetch]

/-- Witness for claim C8: against a provider whose `balanceOf` read fails, the
whole collect request fails with the classified (here `Unexpected`) error. -/
theorem collect_fetch_fail_fast_witness :
    fetch_pairs readEnvFail 2 9 [1] = .error .Other ∧
    collect_erc20 readEnvFail submitEnvA 9 ⟨3, 4, 2, [(1, .Amount 5)]⟩ =
      .error .Unexpected := by
  refine ⟨by decide, ?_⟩
  exact collect_fetch_fail_fast.2.2 readEnvFail submitEnvA 9
    ⟨3, 4, 2, [(1, .Amount 5)]⟩ .Other (by decide)

/-- Helper: the ERC20 error classifier never produces `InsufficientFunds`. -/
theorem from_erc20_err_ne_insufficient (e : ContractError) (t x y z : Nat) :
    from_erc20_err e t ≠ .InsufficientFunds x y z := by
  cases e with
  | UnknownFunction => simp [from_erc20_err]
  | UnknownSelector => simp [from_erc20_err]
  | TransportError e2 => cases e2 <;> simp [from_erc20_err, rpcErrorIntoDc]
  | Other => simp [from_erc20_err]

/-- Helper: transaction submission never fails with `InsufficientFunds`. -/
theorem send_transaction_ne_insufficient (s : SubmitEnv) (tx : Tx) (signer x y z : Nat) :
    send_transaction s tx signer ≠ .error (.InsufficientFunds x y z) := by
  intro hcontra
  unfold send_transaction at hcontra
  split at hcontra
  · dsimp only at hcontra
    split at hcontra
    · rename_i e heq
      cases e <;> simp [rpcErrorIntoDc] at hcontra
    · split at hcontra
      · rename_i e heq
        cases e <;> simp [rpcErrorIntoDc] at hcontra
      · simp at hcontra
  · simp at hcontra

/-- Claim C10: `approve` can never fail with `InsufficientFunds`; once the
balance read and resolution succeed it hands the transaction straight to the
submitter with no comparison against the balance, whereas `transfer_erc20`
rejects a resolved amount exceeding the balance before submitting. -/
theorem approve_no_funds_check :
    (∀ (r : ReadEnv) (s : SubmitEnv) (request : ApproveRequest) (x y z : Nat),
      approve r s request ≠ .error (.InsufficientFunds x y z)) ∧
    (∀ (r : ReadEnv) (s : SubmitEnv) (request : ApproveRequest) (balance actual : Nat),
      r.balanceOf request.token request.caller = .ok balance →
      normalize_amount request.amount balance = .ok actual →
      approve r s request =
        send_transaction s ⟨.erc20approve request.token request.spender actual, none, none⟩
          request.caller) ∧
    (∀ (r : ReadEnv) (s : SubmitEnv) (caller recipient token_address : Nat)
        (amount : FractionOrAmount) (balance actual : Nat),
      r.balanceOf token_address caller = .ok balance →
      normalize_amount amount balance = .ok actual →
      balance < actual →
      transfer_erc20 r s caller recipient token_address amount =
        .error (.InsufficientFunds actual balance caller)) := by
  refine ⟨?_, ?_, ?_⟩
  · intro r s request x y z
    intro hcontra
    unfold approve at hcontra
    split at hcontra
    · rename_i ce heq
      exact from_erc20_err_ne_insufficient ce request.token x y z
        (Except.error.inj hcontra)
    · split at hcontra
      · simp at hcontra
      · exact send_transaction_ne_insufficient s _ request.caller x y z hcontra
  · intro r s request balance actual hb hn
    simp [approve, hb, hn]
  · intro r s caller recipient token_address amount balance actual hb hn hlt
    simp [transfer_erc20, hb, hn, hlt]

/-- Witness for claim C10: with balance 10 and request `Fraction{200,100}`
resolving to 20, `approve` still submits (returning hash 7) while
`transfer_erc20` rejects the same over-balance amount. -/
theorem approve_no_funds_check_witness :
    readEnvA.balanceOf 2 3 = .ok 10 ∧
    normalize_amount (.Fraction ⟨200, 100⟩) 10 = .ok 20 ∧
    approve readEnvA submitEnvA ⟨1, .Fraction ⟨200, 100⟩, 2, 3⟩ = .ok ⟨7⟩ ∧
    transfer_erc20 readEnvA submitEnvA 3 4 2 (.Fraction ⟨200, 100⟩) =
      .error (.InsufficientFunds 20 10 3) := by
  refine ⟨rfl, by decide, ?_, ?_⟩
  · have h := approve_no_funds_check.2.1 readEnvA submitEnvA
      ⟨1, .Fraction ⟨200, 100⟩, 2, 3⟩ 10 20 rfl (by decide)
    rw [h]
    decide
  · exact approve_no_funds_check.2.2 readEnvA submitEnvA 3 4 2
      (.Fraction ⟨200, 100⟩) 10 20 rfl (by decide) (by decide)
